import Mathlib

/-!
Verification of the FASO TiiM Roogo backend

A shallow embedding in Lean 4 of the pharmacy-marketplace backend
(`main.py`, `schemas.py`): the data model, the order-placement handler
`create_order`, the order-status update handler, the catalog search
handler `search_inventories`, and the haversine distance utility.
Monetary values (Python floats) are modelled as exact rationals `ℚ`;
the document store is modelled as lists of (identifier, document)
pairs threaded through the handlers explicitly.
-/

namespace Roogo

/-- Rounding of a rational to 2 decimal places, modelling Python's
`round(x, 2)` on the idealized (exact) arithmetic. -/
def round2 (q : ℚ) : ℚ := (round (q * 100) : ℤ) / 100

/-- Python truthiness of an optional string parameter: `None` and the
empty string are falsy (`if not q`, `if q`, `if barcode`,
`if not payload.prescription_url` in `main.py`). -/
def optTruthy : Option String → Bool
  | none => false
  | some s => !s.isEmpty

/-! ## Data model (`schemas.py`) -/

/-- Canonical medicine catalog entry (`Medicine` in `schemas.py`). -/
structure Medicine where
  name : String
  dci : Option String := none
  barcode : Option String := none
  category : Option String := none
  requires_prescription : Bool := false
deriving DecidableEq

/-- Per-pharmacy stock record (`Inventory` in `schemas.py`). -/
structure Inventory where
  pharmacy_id : String
  medicine_id : String
  medicine_name : String
  dci : Option String := none
  barcode : Option String := none
  price : ℚ
  stock : ℤ
deriving DecidableEq

/-- A pharmacy document as read back from the schemaless store by the
search route; `main.py` accesses `latitude`/`longitude` defensively
(`ph.get("latitude") is not None`, `try/except` around the floats), so
coordinates are modelled as optional. -/
structure PharmacyDoc where
  name : String
  address : String
  coords : Option (ℚ × ℚ) := none
deriving DecidableEq

/-- Order line item (`OrderItem` in `schemas.py`). -/
structure OrderItem where
  inventory_id : String
  medicine_name : String
  price : ℚ
  quantity : ℤ
  requires_prescription : Bool := false
deriving DecidableEq

/-- The delivery-method enumeration (`Literal["delivery", "click_collect"]`). -/
inductive DeliveryMethod
  | delivery
  | click_collect
deriving DecidableEq

/-- The order-status enumeration of `schemas.py` (`Order.status`). -/
inductive OrderStatus
  | pending_validation
  | validated
  | preparing
  | out_for_delivery
  | ready_for_pickup
  | delivered
  | cancelled
deriving DecidableEq

/-- Persisted order document (`Order` in `schemas.py`). -/
structure Order where
  user_name : String
  user_phone : String
  pharmacy_id : String
  items : List OrderItem
  delivery_method : DeliveryMethod
  delivery_address : Option String := none
  prescription_url : Option String := none
  status : OrderStatus := .pending_validation
  service_fee : ℚ := 0
  delivery_fee : ℚ := 0
  total_amount : ℚ := 0
deriving DecidableEq

/-- Body of `POST /api/orders` (`CreateOrderRequest` in `main.py`). -/
structure CreateOrderRequest where
  user_name : String
  user_phone : String
  pharmacy_id : String
  items : List OrderItem
  delivery_method : DeliveryMethod
  delivery_address : Option String := none
  prescription_url : Option String := none
deriving DecidableEq

/-- Response body of `POST /api/orders` (`OrderResponse` in `main.py`). -/
structure OrderResponse where
  order_id : String
  status : OrderStatus
  total_amount : ℚ
  delivery_fee : ℚ
  service_fee : ℚ
deriving DecidableEq

/-- Field-level validation of one `OrderItem` as enforced by its
pydantic model: `quantity` carries `ge=1`; all other fields are
unconstrained beyond their types. -/
def validOrderItem (it : OrderItem) : Bool := 1 ≤ it.quantity

/-- Boundary validation of the `POST /api/orders` body: each item must
validate; the `items` list itself carries no length constraint. -/
def validCreateOrderRequest (p : CreateOrderRequest) : Bool :=
  p.items.all validOrderItem

/-! ## The document store -/

/-- The document store: one association list per collection used by the
verified routes. -/
structure Db where
  medicines : List (String × Medicine) := []
  inventories : List (String × Inventory) := []
  pharmacies : List (String × PharmacyDoc) := []
  orders : List Order := []

/-- Model of the handler lookup `db["inventory"].find_one(...)` by identifier. -/
def findInv (db : Db) (id : String) : Option Inventory :=
  (db.inventories.find? (fun p => p.1 == id)).map Prod.snd

/-! ## `POST /api/orders` (`create_order` in `main.py`) -/

/-- API error responses raised by the handlers (`HTTPException`):
`notFound` is status 404, `invalidInput` is status 400; both carry the
`detail` string. -/
inductive ApiError
  | notFound (detail : String)
  | invalidInput (detail : String)
deriving DecidableEq

/-- The per-item validation loop of `create_order`: look up each item's
inventory (404 if missing), check stock (400 if insufficient),
accumulate `total += item.price * item.quantity` and
`requires_rx |= item.requires_prescription`. -/
def validateItems (db : Db) :
    List OrderItem → ℚ → Bool → Except ApiError (ℚ × Bool)
  | [], total, rx => .ok (total, rx)
  | it :: rest, total, rx =>
    match findInv db it.inventory_id with
    | none => .error (.notFound ("Inventory not found: " ++ it.inventory_id))
    | some inv =>
      if inv.stock < it.quantity then
        .error (.invalidInput ("Insufficient stock for " ++ inv.medicine_name))
      else
        validateItems db rest (total + it.price * (it.quantity : ℚ))
          (rx || it.requires_prescription)

/-- Handler `create_order` (`main.py` 167–209): validate items, compute fees,
require a prescription URL when some item needs one, then persist the
order document and return the response.  The store identifier assigned
by `create_document` is modelled as the insertion index. -/
def createOrder (db : Db) (payload : CreateOrderRequest) :
    Db × Except ApiError OrderResponse :=
  match validateItems db payload.items 0 false with
  | .error e => (db, .error e)
  | .ok (total, requires_rx) =>
    let service_fee := round2 (max (0.01 * total) 100 / 100)
    let delivery_fee : ℚ :=
      if payload.delivery_method = DeliveryMethod.delivery then 2.5 else 0
    if requires_rx && !optTruthy payload.prescription_url then
      (db, .error (.invalidInput "Prescription required for selected items"))
    else
      let order_doc : Order :=
        { user_name := payload.user_name
          user_phone := payload.user_phone
          pharmacy_id := payload.pharmacy_id
          items := payload.items
          delivery_method := payload.delivery_method
          delivery_address := payload.delivery_address
          prescription_url := payload.prescription_url
          status := .pending_validation
          service_fee := service_fee
          delivery_fee := delivery_fee
          total_amount := round2 (total + service_fee + delivery_fee) }
      ({ db with orders := db.orders ++ [order_doc] },
       .ok { order_id := toString db.orders.length
             status := .pending_validation
             total_amount := order_doc.total_amount
             delivery_fee := delivery_fee
             service_fee := service_fee })

/-- The accumulated order total, `Σ item.price × item.quantity`. -/
def totalOf (items : List OrderItem) : ℚ :=
  (items.map (fun it => it.price * (it.quantity : ℚ))).sum

/-- The item's inventory lookup succeeds (`find_one` returns a
document). -/
def lookupOk (db : Db) (it : OrderItem) : Bool :=
  (findInv db it.inventory_id).isSome

/-- The item's stock check passes: if the inventory resolves, its
stock is at least the requested quantity (vacuously true when the
lookup fails, since `create_order` then errors out earlier). -/
def stockOk (db : Db) (it : OrderItem) : Bool :=
  match findInv db it.inventory_id with
  | none => true
  | some inv => decide (it.quantity ≤ inv.stock)

/-! ## `PUT /api/orders/{id}` (`update_order_status` in `main.py`) -/

/-- The target-status enumeration accepted by `PUT /api/orders/{id}`
(the `Literal` of `UpdateOrderStatusRequest` in `main.py`); note that
`pending_validation` is not among them. -/
inductive UpdateStatus
  | validated
  | preparing
  | out_for_delivery
  | ready_for_pickup
  | delivered
  | cancelled
deriving DecidableEq

/-- The order status written by `update_order_status` for each request
value. -/
def UpdateStatus.toOrderStatus : UpdateStatus → OrderStatus
  | .validated => .validated
  | .preparing => .preparing
  | .out_for_delivery => .out_for_delivery
  | .ready_for_pickup => .ready_for_pickup
  | .delivered => .delivered
  | .cancelled => .cancelled

/-- One application of `PUT /api/orders/{id}` to an order's status: the
handler unconditionally sets the stored status to the requested value
(`update_one(..., {"$set": {"status": payload.status}})`), ignoring the
current status. -/
def stepStatus (_s t : OrderStatus) : Prop :=
  ∃ u : UpdateStatus, t = u.toOrderStatus

/-- Reachability between order statuses through any finite sequence of
`PUT /api/orders/{id}` requests. -/
def reachStatus : OrderStatus → OrderStatus → Prop :=
  Relation.ReflTransGen stepStatus

/-- Handler `update_order_status` on the store: set the matched order's status,
404 when no order matches the identifier.  Orders are addressed by
their insertion index, matching the identifier scheme of
`createOrder`. -/
def updateOrderStatus (db : Db) (order_id : String) (u : UpdateStatus) :
    Db × Except ApiError OrderStatus :=
  match (List.range db.orders.length).find? (fun i => toString i == order_id) with
  | none => (db, .error (.notFound "Order not found"))
  | some i =>
    ({ db with orders :=
        db.orders.modify (fun o => { o with status := u.toOrderStatus }) i },
     .ok u.toOrderStatus)

/-! ## `GET /api/search` (`search_inventories` in `main.py`) -/

/-- Does `hay` start with `needle` (character lists)? -/
def leadMatch : List Char → List Char → Bool
  | [], _ => true
  | _ :: _, [] => false
  | a :: as, b :: bs => a == b && leadMatch as bs

/-- Does `needle` occur contiguously anywhere in `hay`? -/
def containsSeq (needle : List Char) : List Char → Bool
  | [] => needle.isEmpty
  | hay@(_ :: rest) => leadMatch needle hay || containsSeq needle rest

/-- The characters of a string, lower-cased. -/
def lowerChars (s : String) : List Char := s.toList.map Char.toLower

/-- Case-insensitive substring test, modelling the `$regex .. $options i`
medicine filter of `search_inventories` for plain (metacharacter-free)
query strings. -/
def strContainsCI (hay needle : String) : Bool :=
  containsSeq (lowerChars needle) (lowerChars hay)

/-- The medicine filter document built by `search_inventories`:
initially empty (match all), replaced by the name/dci regex filter when
`q` is truthy, then replaced by the barcode filter when `barcode` is
truthy. -/
inductive MedFilter
  | all
  | byQ (q : String)
  | byBarcode (b : String)
deriving DecidableEq

/-- The sequential construction of `med_filter` in `search_inventories`
(`if q: ...` then `if barcode: ...`, the second overwriting the first). -/
def buildMedFilter (q barcode : Option String) : MedFilter :=
  let f := MedFilter.all
  let f := if optTruthy q then MedFilter.byQ (q.getD "") else f
  let f := if optTruthy barcode then MedFilter.byBarcode (barcode.getD "") else f
  f

/-- Whether a medicine document matches the filter: the barcode filter
is an exact equality on the `barcode` field; the `q` filter matches the
name or the `dci` case-insensitively (a document with no `dci` cannot
match through `dci`). -/
def medMatches (f : MedFilter) (m : Medicine) : Bool :=
  match f with
  | .all => true
  | .byQ q =>
    strContainsCI m.name q ||
      (match m.dci with
       | some d => strContainsCI d q
       | none => false)
  | .byBarcode b => m.barcode == some b

/-- One row of the `GET /api/search` response
(`SearchResponseItem` in `main.py`). -/
structure SearchResponseItem where
  inventory_id : String
  pharmacy_id : String
  pharmacy_name : String
  pharmacy_address : String
  medicine_name : String
  dci : Option String := none
  barcode : Option String := none
  price : ℚ
  stock : ℤ
  distance_km : Option ℚ := none
deriving DecidableEq

/-- The sort key of a result row:
`(x.distance_km if x.distance_km is not None else 1e9, x.price)`. -/
def searchKey (x : SearchResponseItem) : ℚ × ℚ :=
  (x.distance_km.getD (10 ^ 9 : ℚ), x.price)

/-- Lexicographic order on pairs of rationals, as Python compares the
sort-key tuples. -/
def tupLE (p q : ℚ × ℚ) : Prop :=
  p.1 < q.1 ∨ (p.1 = q.1 ∧ p.2 ≤ q.2)

instance : DecidableRel tupLE := fun p q => by
  unfold tupLE
  exact inferInstance

/-- Row comparison used to sort the search response. -/
def keyLE (a b : SearchResponseItem) : Prop :=
  tupLE (searchKey a) (searchKey b)

instance : DecidableRel keyLE := fun a b => by
  unfold keyLE
  exact inferInstance

instance : IsTotal SearchResponseItem keyLE where
  total a b := by
    unfold keyLE tupLE
    rcases lt_trichotomy (searchKey a).1 (searchKey b).1 with h | h | h
    · exact Or.inl (Or.inl h)
    · rcases le_total (searchKey a).2 (searchKey b).2 with h2 | h2
      · exact Or.inl (Or.inr ⟨h, h2⟩)
      · exact Or.inr (Or.inr ⟨h.symm, h2⟩)
    · exact Or.inr (Or.inl h)

instance : IsTrans SearchResponseItem keyLE where
  trans a b c hab hbc := by
    unfold keyLE tupLE at *
    rcases hab with h1 | ⟨h1, h1'⟩ <;> rcases hbc with h2 | ⟨h2, h2'⟩
    · exact Or.inl (h1.trans h2)
    · exact Or.inl (h2 ▸ h1)
    · exact Or.inl (h1 ▸ h2)
    · exact Or.inr ⟨h1.trans h2, h1'.trans h2'⟩

/-- Handler `search_inventories` (`main.py` 90–145).  The distance computation
(`round(haversine_km(...), 2)` guarded by `try/except`, returning a
rounded kilometre value or no value) is abstracted as the parameter
`distf`, since it is real-valued; everything else follows the source:
the `q`/`barcode` truthiness guard, medicine filtering, the stock > 0
inventory filter, the pharmacy join with its `"Unknown"`/empty-string
defaults, and the final sort by `(distance or 1e9, price)`. -/
def searchInventories (distf : ℚ → ℚ → ℚ → ℚ → Option ℚ) (db : Db)
    (q barcode : Option String) (latitude longitude : Option ℚ) :
    Except ApiError (List SearchResponseItem) :=
  if !optTruthy q && !optTruthy barcode then
    .error (.invalidInput "Provide 'q' or 'barcode'")
  else
    let f := buildMedFilter q barcode
    let meds := db.medicines.filter (fun p => medMatches f p.2)
    if meds.isEmpty then .ok [] else
    let med_ids := meds.map (fun p => p.1)
    let inventories := db.inventories.filter
      (fun p => med_ids.contains p.2.medicine_id && decide (0 < p.2.stock))
    if inventories.isEmpty then .ok [] else
    let rows := inventories.map (fun p =>
      let ph? := (db.pharmacies.find? (fun ph => ph.1 == p.2.pharmacy_id)).map Prod.snd
      let distance : Option ℚ :=
        match latitude, longitude, ph? with
        | some la, some lo, some ph =>
          match ph.coords with
          | some (pla, plo) => distf la lo pla plo
          | none => none
        | _, _, _ => none
      { inventory_id := p.1
        pharmacy_id := p.2.pharmacy_id
        pharmacy_name := (ph?.map PharmacyDoc.name).getD "Unknown"
        pharmacy_address := (ph?.map PharmacyDoc.address).getD ""
        medicine_name := p.2.medicine_name
        dci := p.2.dci
        barcode := p.2.barcode
        price := p.2.price
        stock := p.2.stock
        distance_km := distance })
    .ok (rows.insertionSort keyLE)

/-! ## Distance utility (`haversine_km` in `main.py`)

The float trigonometry of the source is modelled over the real
numbers. -/

/-- Conversion `math.radians`: degrees to radians. -/
noncomputable def rad (x : ℝ) : ℝ := x * (Real.pi / 180)

/-- Distance `haversine_km(lat1, lon1, lat2, lon2)`: great-circle distance in
kilometres between two points given in decimal degrees, with Earth
radius 6371 km. -/
noncomputable def haversine_km (lat1 lon1 lat2 lon2 : ℝ) : ℝ :=
  2 * Real.arcsin (Real.sqrt
      (Real.sin ((rad lat2 - rad lat1) / 2) ^ 2 +
        Real.cos (rad lat1) * Real.cos (rad lat2) *
          Real.sin ((rad lon2 - rad lon1) / 2) ^ 2)) * 6371

/-! ## Supporting lemmas -/

theorem validateItems_allOk (db : Db) :
    ∀ (its : List OrderItem) (t0 : ℚ) (r0 : Bool),
      (∀ it ∈ its, lookupOk db it ∧ stockOk db it) →
      validateItems db its t0 r0 =
        .ok (t0 + totalOf its, r0 || its.any (fun x => x.requires_prescription)) := by
  intro its
  induction its with
  | nil => intro t0 r0 _; simp [validateItems, totalOf]
  | cons it rest ih =>
    intro t0 r0 h
    obtain ⟨hl, hs⟩ := h it (List.mem_cons_self it rest)
    rw [lookupOk, Option.isSome_iff_exists] at hl
    obtain ⟨inv, hinv⟩ := hl
    rw [stockOk, hinv] at hs
    have hq : it.quantity ≤ inv.stock := of_decide_eq_true hs
    have hnlt : ¬ inv.stock < it.quantity := not_lt.mpr hq
    simp only [validateItems, hinv, hnlt, if_false]
    rw [ih _ _ (fun x hx => h x (List.mem_cons_of_mem it hx))]
    simp only [totalOf, List.map_cons, List.sum_cons, List.any_cons,
      Prod.mk.injEq, Except.ok.injEq]
    exact ⟨by ring, by rw [Bool.or_assoc]⟩

theorem validateItems_total (db : Db) :
    ∀ (its : List OrderItem) (t0 : ℚ) (r0 : Bool) (t : ℚ) (rx : Bool),
      validateItems db its t0 r0 = .ok (t, rx) →
      t = t0 + totalOf its ∧
        rx = (r0 || its.any (fun x => x.requires_prescription)) := by
  intro its
  induction its with
  | nil =>
    intro t0 r0 t rx h
    simp [validateItems] at h
    simp [totalOf, h.1.symm, h.2.symm]
  | cons it rest ih =>
    intro t0 r0 t rx h
    rw [validateItems] at h
    cases hinv : findInv db it.inventory_id with
    | none => simp only [hinv] at h; exact Except.noConfusion h
    | some inv =>
      simp only [hinv] at h
      by_cases hlt : inv.stock < it.quantity
      · rw [if_pos hlt] at h; exact absurd h (by simp)
      · rw [if_neg hlt] at h
        obtain ⟨ht, hrx⟩ := ih _ _ _ _ h
        constructor
        · rw [ht]; simp only [totalOf, List.map_cons, List.sum_cons]; ring
        · rw [hrx]; simp [Bool.or_assoc]

theorem validateItems_notFound (db : Db) :
    ∀ (its : List OrderItem) (t0 : ℚ) (r0 : Bool),
      (∀ it ∈ its, stockOk db it) →
      (∃ it ∈ its, lookupOk db it = false) →
      ∃ d, validateItems db its t0 r0 = .error (.notFound d) := by
  intro its
  induction its with
  | nil => intro t0 r0 _ hex; simp at hex
  | cons it rest ih =>
    intro t0 r0 hall hex
    cases hinv : findInv db it.inventory_id with
    | none =>
      exact ⟨"Inventory not found: " ++ it.inventory_id, by
        simp only [validateItems, hinv]⟩
    | some inv =>
      have hs := hall it (List.mem_cons_self it rest)
      rw [stockOk, hinv] at hs
      have hq : it.quantity ≤ inv.stock := of_decide_eq_true hs
      have hnlt : ¬ inv.stock < it.quantity := not_lt.mpr hq
      simp only [validateItems, hinv, hnlt, if_false]
      apply ih _ _ (fun x hx => hall x (List.mem_cons_of_mem it hx))
      obtain ⟨x, hx, hxf⟩ := hex
      rcases List.mem_cons.mp hx with rfl | hx'
      · rw [lookupOk, hinv] at hxf; simp at hxf
      · exact ⟨x, hx', hxf⟩

theorem validateItems_insufficient (db : Db) :
    ∀ (its : List OrderItem) (t0 : ℚ) (r0 : Bool),
      (∀ it ∈ its, lookupOk db it) →
      (∃ it ∈ its, stockOk db it = false) →
      ∃ n, validateItems db its t0 r0 =
        .error (.invalidInput ("Insufficient stock for " ++ n)) := by
  intro its
  induction its with
  | nil => intro t0 r0 _ hex; simp at hex
  | cons it rest ih =>
    intro t0 r0 hall hex
    have hl := hall it (List.mem_cons_self it rest)
    rw [lookupOk, Option.isSome_iff_exists] at hl
    obtain ⟨inv, hinv⟩ := hl
    by_cases hlt : inv.stock < it.quantity
    · exact ⟨inv.medicine_name, by simp only [validateItems, hinv, hlt, if_true]⟩
    · simp only [validateItems, hinv, hlt, if_false]
      apply ih _ _ (fun x hx => hall x (List.mem_cons_of_mem it hx))
      obtain ⟨x, hx, hxf⟩ := hex
      rcases List.mem_cons.mp hx with rfl | hx'
      · rw [stockOk, hinv] at hxf
        simp only [decide_eq_false_iff_not, not_le] at hxf
        exact absurd hxf hlt
      · exact ⟨x, hx', hxf⟩

theorem createOrder_ok {db : Db} {p : CreateOrderRequest} {db2 : Db}
    {r : OrderResponse} (h : createOrder db p = (db2, .ok r)) :
    r.service_fee = round2 (max (0.01 * totalOf p.items) 100 / 100) ∧
    r.delivery_fee =
      (if p.delivery_method = DeliveryMethod.delivery then (2.5 : ℚ) else 0) ∧
    r.total_amount = round2 (totalOf p.items + r.service_fee + r.delivery_fee) ∧
    r.status = .pending_validation ∧
    ∃ o : Order, db2.orders = db.orders ++ [o] ∧ o.items = p.items ∧
      o.status = .pending_validation ∧ o.service_fee = r.service_fee ∧
      o.delivery_fee = r.delivery_fee ∧ o.total_amount = r.total_amount := by
  rw [createOrder] at h
  cases hv : validateItems db p.items 0 false with
  | error e => simp only [hv] at h; exact absurd h (by simp)
  | ok pr =>
    obtain ⟨t, rx⟩ := pr
    obtain ⟨ht, -⟩ := validateItems_total db p.items 0 false t rx hv
    rw [zero_add] at ht
    simp only [hv] at h
    by_cases hrx : (rx && !optTruthy p.prescription_url) = true
    · rw [if_pos hrx] at h; exact absurd h (by simp)
    · rw [if_neg hrx] at h
      subst ht
      injection h with h1 h2
      injection h2 with h3
      subst h1
      subst h3
      exact ⟨rfl, rfl, rfl, rfl, _, rfl, rfl, rfl, rfl, rfl, rfl⟩

theorem createOrder_fst_of_error {db : Db} {p : CreateOrderRequest}
    {e : ApiError} (h : (createOrder db p).2 = .error e) :
    (createOrder db p).1 = db := by
  rw [createOrder] at h ⊢
  cases hv : validateItems db p.items 0 false with
  | error e' => simp [hv]
  | ok pr =>
    obtain ⟨t, rx⟩ := pr
    simp only [hv] at h ⊢
    by_cases hrx : (rx && !optTruthy p.prescription_url) = true
    · rw [if_pos hrx]
    · rw [if_neg hrx] at h ⊢
      exact absurd h (by simp)

theorem createOrder_succeeds {db : Db} {p : CreateOrderRequest}
    (hok : ∀ it ∈ p.items, lookupOk db it ∧ stockOk db it)
    (hrx : (∃ it ∈ p.items, it.requires_prescription = true) →
      optTruthy p.prescription_url = true) :
    ∃ db2 r, createOrder db p = (db2, .ok r) := by
  rw [createOrder, validateItems_allOk db p.items 0 false hok]
  have hcond : (p.items.any (fun x => x.requires_prescription) &&
      !optTruthy p.prescription_url) = false := by
    by_cases hany : p.items.any (fun x => x.requires_prescription) = true
    · obtain ⟨it, hit, hp⟩ := List.any_eq_true.mp hany
      rw [hany, hrx ⟨it, hit, hp⟩]
      rfl
    · rw [Bool.not_eq_true] at hany
      rw [hany]
      rfl
  simp only [Bool.false_or, hcond, Bool.false_eq_true, if_false]
  exact ⟨_, _, rfl⟩

/-- Monotonicity of `round` on rationals. -/
theorem round_mono_rat {x y : ℚ} (h : x ≤ y) : round x ≤ round y := by
  rw [round_eq, round_eq]
  exact Int.floor_le_floor (by linarith)

theorem one_le_round2 {x : ℚ} (hx : 1 ≤ x) : 1 ≤ round2 x := by
  rw [round2]
  have h1 : round ((1 : ℚ) * 100) ≤ round (x * 100) :=
    round_mono_rat (by linarith)
  have h2 : round ((1 : ℚ) * 100) = 100 := by norm_num [round_eq]
  rw [h2] at h1
  have h3 : (100 : ℚ) ≤ (round (x * 100) : ℤ) := by exact_mod_cast h1
  linarith [div_le_div_of_nonneg_right (c := (100 : ℚ)) h3 (by norm_num)]

theorem exists_update_of_ne_pending :
    ∀ t : OrderStatus, t ≠ .pending_validation →
      ∃ u : UpdateStatus, t = u.toOrderStatus := by
  intro t ht
  cases t with
  | pending_validation => exact absurd rfl ht
  | validated => exact ⟨.validated, rfl⟩
  | preparing => exact ⟨.preparing, rfl⟩
  | out_for_delivery => exact ⟨.out_for_delivery, rfl⟩
  | ready_for_pickup => exact ⟨.ready_for_pickup, rfl⟩
  | delivered => exact ⟨.delivered, rfl⟩
  | cancelled => exact ⟨.cancelled, rfl⟩

theorem reachStatus_pending {s t : OrderStatus} (h : reachStatus s t) :
    t = .pending_validation → s = .pending_validation := by
  induction h with
  | refl => exact fun h => h
  | tail _ hstep _ =>
    intro ht
    obtain ⟨u, hu⟩ := hstep
    rw [ht] at hu
    cases u <;> simp [UpdateStatus.toOrderStatus] at hu

/-- Correctness of `leadMatch`: it decides the initial-segment relation. -/
theorem leadMatch_iff :
    ∀ n h : List Char, leadMatch n h = true ↔ ∃ t, h = n ++ t := by
  intro n
  induction n with
  | nil => intro h; simp [leadMatch]
  | cons a as ih =>
    intro h
    cases h with
    | nil => simp [leadMatch]
    | cons b bs =>
      rw [leadMatch, Bool.and_eq_true, beq_iff_eq, ih bs]
      constructor
      · rintro ⟨rfl, t, rfl⟩; exact ⟨t, rfl⟩
      · rintro ⟨t, ht⟩
        rw [List.cons_append] at ht
        injection ht with h1 h2
        exact ⟨h1.symm, t, h2⟩

/-- Correctness of `containsSeq`: it decides contiguous occurrence. -/
theorem containsSeq_iff :
    ∀ n h : List Char, containsSeq n h = true ↔ ∃ pre suf, h = pre ++ n ++ suf := by
  intro n h
  induction h with
  | nil =>
    rw [containsSeq]
    simp only [List.isEmpty_iff]
    constructor
    · rintro rfl; exact ⟨[], [], rfl⟩
    · rintro ⟨pre, suf, hps⟩
      rcases List.append_eq_nil.mp (List.append_eq_nil.mp hps.symm).1 with ⟨-, h2⟩
      exact h2
  | cons c rest ih =>
    rw [containsSeq, Bool.or_eq_true, leadMatch_iff, ih]
    constructor
    · rintro (⟨t, ht⟩ | ⟨pre, suf, hps⟩)
      · exact ⟨[], t, by simpa using ht⟩
      · exact ⟨c :: pre, suf, by simp [hps]⟩
    · rintro ⟨pre, suf, hps⟩
      cases pre with
      | nil => exact Or.inl ⟨suf, by simpa using hps⟩
      | cons c' pre' =>
        rw [List.cons_append, List.cons_append] at hps
        injection hps with h1 h2
        exact Or.inr ⟨pre', suf, h2⟩

/-- Case-insensitive contiguous occurrence of `needle` in `hay`: the
lower-cased characters of `needle` appear as a contiguous run inside
the lower-cased characters of `hay`. -/
def CIoccurs (hay needle : String) : Prop :=
  ∃ pre suf, lowerChars hay = pre ++ lowerChars needle ++ suf

theorem strContainsCI_iff (hay needle : String) :
    strContainsCI hay needle = true ↔ CIoccurs hay needle :=
  containsSeq_iff (lowerChars needle) (lowerChars hay)

/-! ## Concrete fixtures used by the witnesses -/

def invA : Inventory :=
  { pharmacy_id := "p1", medicine_id := "m1", medicine_name := "Para",
    price := 4, stock := 10 }

def db0 : Db := { inventories := [("i1", invA)] }

def reqOk : CreateOrderRequest :=
  { user_name := "u", user_phone := "70", pharmacy_id := "p1",
    items := [{ inventory_id := "i1", medicine_name := "Para",
                price := 4, quantity := 2 }],
    delivery_method := .click_collect }

def orderDoc0 : Order :=
  { user_name := "u", user_phone := "70", pharmacy_id := "p1",
    items := reqOk.items, delivery_method := .click_collect,
    status := .pending_validation, service_fee := 1, delivery_fee := 0,
    total_amount := 9 }

def resp0 : OrderResponse :=
  { order_id := "0", status := .pending_validation, total_amount := 9,
    delivery_fee := 0, service_fee := 1 }

theorem createOrder_db0_result :
    createOrder db0 reqOk = ({ db0 with orders := [orderDoc0] }, .ok resp0) := by
  have hv : validateItems db0 reqOk.items 0 false = .ok (8, false) := by
    have : findInv db0 "i1" = some invA := by rfl
    simp only [reqOk, validateItems, this]
    norm_num [invA, validateItems]
  rw [createOrder, hv]
  have hsf : round2 (max (0.01 * 8) 100 / 100) = 1 := by
    norm_num [round2, round_eq]
  have hta : round2 (8 + 1 + 0) = 9 := by
    norm_num [round2, round_eq]
  simp only [optTruthy, Bool.and_self, Bool.false_and, Bool.and_false,
    Bool.false_eq_true, if_false, hsf]
  have hdm : DeliveryMethod.click_collect ≠ DeliveryMethod.delivery := by decide
  have ht0 : toString 0 = "0" := rfl
  have hta9 : round2 9 = 9 := by norm_num [round2, round_eq]
  norm_num [hsf, hta, reqOk, db0, orderDoc0, resp0, optTruthy, hdm,
    if_neg hdm, ht0, hta9]

/-! ## Claim theorems -/

/-- C1: every successfully placed order returns and persists fees with
`total = Σ price × quantity` over the request-supplied items,
`service_fee = round(max(0.01·total, 100)/100, 2)`,
`delivery_fee = 2.5` for delivery and `0` for click-and-collect, and
`total_amount = round(total + service_fee + delivery_fee, 2)`; in
particular items totalling 1000 give `service_fee = 1.00`. -/
theorem c1_order_fees (db : Db) (p : CreateOrderRequest) (db2 : Db)
    (r : OrderResponse) (h : createOrder db p = (db2, .ok r)) :
    r.service_fee = round2 (max (0.01 * totalOf p.items) 100 / 100) ∧
    r.delivery_fee =
      (if p.delivery_method = DeliveryMethod.delivery then (2.5 : ℚ) else 0) ∧
    r.total_amount = round2 (totalOf p.items + r.service_fee + r.delivery_fee) ∧
    (totalOf p.items = 1000 → r.service_fee = 1) ∧
    ∃ o : Order, db2.orders = db.orders ++ [o] ∧
      o.service_fee = r.service_fee ∧ o.delivery_fee = r.delivery_fee ∧
      o.total_amount = r.total_amount := by
  obtain ⟨hsf, hdf, hta, -, o, ho1, -, -, ho4, ho5, ho6⟩ := createOrder_ok h
  refine ⟨hsf, hdf, hta, ?_, o, ho1, ho4, ho5, ho6⟩
  intro h1000
  rw [hsf, h1000]
  norm_num [round2, round_eq]

/-- Witness for C1 at a concrete database and request. -/
theorem c1_order_fees_witness :
    resp0.total_amount =
      round2 (totalOf reqOk.items + resp0.service_fee + resp0.delivery_fee) :=
  (c1_order_fees db0 reqOk _ resp0 createOrder_db0_result).2.2.1

/-- C9: every successfully placed order has `service_fee ≥ 1.00`,
whatever the client-supplied prices and quantities (including zero or
negative totals), since `max(0.01·total, 100)/100 ≥ 1`. -/
theorem c9_service_fee_floor (db : Db) (p : CreateOrderRequest) (db2 : Db)
    (r : OrderResponse) (h : createOrder db p = (db2, .ok r)) :
    1 ≤ r.service_fee := by
  obtain ⟨hsf, -⟩ := createOrder_ok h
  rw [hsf]
  apply one_le_round2
  have h100 : (100 : ℚ) ≤ max (0.01 * totalOf p.items) 100 := le_max_right _ _
  linarith

/-- Witness for C9 at a concrete database and request. -/
theorem c9_service_fee_floor_witness : 1 ≤ resp0.service_fee :=
  c9_service_fee_floor db0 reqOk _ resp0 createOrder_db0_result

/-- C6: when order placement fails (not-found inventory, insufficient
stock, or missing prescription URL), the store is left unchanged — no
partial order is persisted; insertion happens only after all per-item
validation passed. -/
theorem c6_no_partial_persistence (db : Db) (p : CreateOrderRequest)
    (e : ApiError) (h : (createOrder db p).2 = .error e) :
    (createOrder db p).1 = db :=
  createOrder_fst_of_error h

/-- Witness for C6 at a concrete failing request. -/
theorem c6_no_partial_persistence_witness :
    (createOrder db0 { reqOk with
        items := [{ inventory_id := "zzz", medicine_name := "X",
                    price := 1, quantity := 1 }] }).1 = db0 :=
  c6_no_partial_persistence db0 _ (.notFound "Inventory not found: zzz")
    (by rfl)

/-- C2: order placement fails 404 when an item's inventory is missing
(earlier items all passing their stock check), fails 400
`"Insufficient stock for <name>"` when all items resolve but one
requests more than the stock, fails 400
`"Prescription required for selected items"` when all items pass
validation, at least one requires a prescription, and no
`prescription_url` was supplied; otherwise placement succeeds. -/
theorem c2_order_validation :
    (∀ (db : Db) (p : CreateOrderRequest),
        (∀ it ∈ p.items, stockOk db it) →
        (∃ it ∈ p.items, lookupOk db it = false) →
        ∃ d, (createOrder db p).2 = .error (.notFound d)) ∧
    (∀ (db : Db) (p : CreateOrderRequest),
        (∀ it ∈ p.items, lookupOk db it) →
        (∃ it ∈ p.items, stockOk db it = false) →
        ∃ n, (createOrder db p).2 =
          .error (.invalidInput ("Insufficient stock for " ++ n))) ∧
    (∀ (db : Db) (p : CreateOrderRequest),
        (∀ it ∈ p.items, lookupOk db it ∧ stockOk db it) →
        (∃ it ∈ p.items, it.requires_prescription = true) →
        p.prescription_url = none →
        (createOrder db p).2 =
          .error (.invalidInput "Prescription required for selected items")) ∧
    (∀ (db : Db) (p : CreateOrderRequest),
        (∀ it ∈ p.items, lookupOk db it ∧ stockOk db it) →
        ((∃ it ∈ p.items, it.requires_prescription = true) →
          optTruthy p.prescription_url = true) →
        ∃ db2 r, createOrder db p = (db2, .ok r)) := by
  refine ⟨?_, ?_, ?_, ?_⟩
  · intro db p hall hex
    obtain ⟨d, hd⟩ := validateItems_notFound db p.items 0 false hall hex
    exact ⟨d, by simp only [createOrder, hd]⟩
  · intro db p hall hex
    obtain ⟨n, hn⟩ := validateItems_insufficient db p.items 0 false hall hex
    exact ⟨n, by simp only [createOrder, hn]⟩
  · intro db p hall hex hurl
    rw [createOrder, validateItems_allOk db p.items 0 false hall]
    have hany : p.items.any (fun x => x.requires_prescription) = true := by
      obtain ⟨it, hit, hp⟩ := hex
      exact List.any_eq_true.mpr ⟨it, hit, hp⟩
    simp only [Bool.false_or, hany, hurl, optTruthy, Bool.not_false,
      Bool.and_self, if_true]
  · intro db p hall hrx
    exact createOrder_succeeds hall hrx

/-- Witness for C2: the four behaviors at concrete databases and
requests. -/
theorem c2_order_validation_witness :
    (∃ d, (createOrder db0 { reqOk with
        items := [{ inventory_id := "zzz", medicine_name := "X",
                    price := 1, quantity := 1 }] }).2 =
      .error (.notFound d)) ∧
    (∃ n, (createOrder db0 { reqOk with
        items := [{ inventory_id := "i1", medicine_name := "Para",
                    price := 4, quantity := 99 }] }).2 =
      .error (.invalidInput ("Insufficient stock for " ++ n))) ∧
    ((createOrder db0 { reqOk with
        items := [{ inventory_id := "i1", medicine_name := "Para",
                    price := 4, quantity := 1,
                    requires_prescription := true }] }).2 =
      .error (.invalidInput "Prescription required for selected items")) ∧
    (∃ db2 r, createOrder db0 reqOk = (db2, .ok r)) :=
  ⟨c2_order_validation.1 db0 _ (by decide) (by decide),
   c2_order_validation.2.1 db0 _ (by decide) (by decide),
   c2_order_validation.2.2.1 db0 _ (by decide) (by decide) rfl,
   c2_order_validation.2.2.2 db0 reqOk (by decide) (by decide)⟩

/-- C3 counterexample: the claim that every state is reachable from
every other via `PUT /api/orders/{id}` fails at the concrete pair
(`validated`, `pending_validation`): the update route's status
enumeration excludes `pending_validation`, so no sequence of updates
leads back to it. -/
theorem c3_reachability_counterexample :
    ¬ reachStatus OrderStatus.validated OrderStatus.pending_validation :=
  fun h => by cases reachStatus_pending h rfl

/-- C3 (amended): every status except `pending_validation` is
reachable from every status via a single `PUT`; `pending_validation`
is reachable only from itself (never via the update route); the update
route sets exactly the requested status; and every order persisted by
`POST /api/orders` is created with status `pending_validation`. -/
theorem c3_status_machine :
    (∀ s t : OrderStatus, t ≠ .pending_validation → reachStatus s t) ∧
    (∀ s : OrderStatus,
        reachStatus s .pending_validation → s = .pending_validation) ∧
    (∀ (db : Db) (id : String) (u : UpdateStatus) (db2 : Db)
        (s2 : OrderStatus), updateOrderStatus db id u = (db2, .ok s2) →
        s2 = u.toOrderStatus) ∧
    (∀ (db : Db) (p : CreateOrderRequest) (db2 : Db) (r : OrderResponse),
        createOrder db p = (db2, .ok r) →
        r.status = .pending_validation ∧
          ∃ o, db2.orders = db.orders ++ [o] ∧
            o.status = .pending_validation) := by
  refine ⟨?_, ?_, ?_, ?_⟩
  · intro s t ht
    obtain ⟨u, hu⟩ := exists_update_of_ne_pending t ht
    exact Relation.ReflTransGen.single ⟨u, hu⟩
  · intro s h
    exact reachStatus_pending h rfl
  · intro db id u db2 s2 h
    rw [updateOrderStatus] at h
    cases hfind : (List.range db.orders.length).find?
        (fun i => toString i == id) with
    | none =>
      simp only [hfind] at h
      exact absurd h (by simp)
    | some i =>
      simp only [hfind] at h
      injection h with h1 h2
      injection h2 with h3
      exact h3.symm
  · intro db p db2 r h
    obtain ⟨-, -, -, hst, o, ho1, -, ho3, -⟩ := createOrder_ok h
    exact ⟨hst, o, ho1, ho3⟩

/-- Witness for C3 at concrete statuses, a concrete update, and a
concrete order creation. -/
theorem c3_status_machine_witness :
    reachStatus OrderStatus.validated OrderStatus.cancelled ∧
    OrderStatus.pending_validation = OrderStatus.pending_validation ∧
    (UpdateStatus.validated.toOrderStatus =
      UpdateStatus.validated.toOrderStatus) ∧
    resp0.status = OrderStatus.pending_validation :=
  ⟨c3_status_machine.1 .validated .cancelled (by decide),
   c3_status_machine.2.1 .pending_validation Relation.ReflTransGen.refl,
   c3_status_machine.2.2.1 { orders := [orderDoc0] } "0" .validated _ _
     (by rfl),
   (c3_status_machine.2.2.2 db0 reqOk _ resp0 createOrder_db0_result).1⟩

/-- C4: with a non-empty `barcode` the medicine filter is exact
equality on the barcode, whatever `q` is (barcode precedence); with
only a non-empty `q` it is case-insensitive substring match against
the medicine name or its dci. -/
theorem c4_medicine_filter :
    (∀ (q : Option String) (b : String) (m : Medicine), b ≠ "" →
        (medMatches (buildMedFilter q (some b)) m = true ↔
          m.barcode = some b)) ∧
    (∀ (s : String) (m : Medicine), s ≠ "" →
        (medMatches (buildMedFilter (some s) none) m = true ↔
          CIoccurs m.name s ∨ ∃ d, m.dci = some d ∧ CIoccurs d s)) := by
  constructor
  · intro q b m hb
    have hie : b.isEmpty = false :=
      Bool.eq_false_iff.mpr (fun h => hb ((String.isEmpty_iff b).mp h))
    have htr : optTruthy (some b) = true := by simp [optTruthy, hie]
    simp only [buildMedFilter, htr, if_true]
    simp [medMatches]
  · intro s m hs
    have hie : s.isEmpty = false :=
      Bool.eq_false_iff.mpr (fun h => hs ((String.isEmpty_iff s).mp h))
    have htr : optTruthy (some s) = true := by simp [optTruthy, hie]
    have hfa : optTruthy none = false := rfl
    simp only [buildMedFilter, htr, hfa, if_true, if_false]
    cases hd : m.dci with
    | none => simp [medMatches, hd, strContainsCI_iff]
    | some d => simp [medMatches, hd, strContainsCI_iff]

/-- Witness for C4: a barcode match and a name-substring match at
concrete medicines and queries. -/
theorem c4_medicine_filter_witness :
    medMatches (buildMedFilter (some "x") (some "123"))
      { name := "A", barcode := some "123" } = true ∧
    medMatches (buildMedFilter (some "lip") none)
      { name := "Doliprane" } = true :=
  ⟨(c4_medicine_filter.1 (some "x") "123" _ (by decide)).mpr rfl,
   (c4_medicine_filter.2 "lip" _ (by decide)).mpr
     (Or.inl ⟨['d', 'o'], ['r', 'a', 'n', 'e'], by decide⟩)⟩

/-- C5: the search result list is sorted ascending by the key
`(distance with absent distance replaced by the sentinel 1e9, price)`,
and a row with a computed distance (necessarily below the sentinel)
strictly precedes a row with no computable distance in that order,
regardless of their prices. -/
theorem c5_search_sorting :
    (∀ (distf : ℚ → ℚ → ℚ → ℚ → Option ℚ) (db : Db)
        (q barcode : Option String) (la lo : Option ℚ)
        (out : List SearchResponseItem),
        searchInventories distf db q barcode la lo = .ok out →
        out.Sorted keyLE) ∧
    (∀ (a b : SearchResponseItem) (d : ℚ), a.distance_km = some d →
        d < 10 ^ 9 → b.distance_km = none → keyLE a b ∧ ¬ keyLE b a) := by
  constructor
  · intro distf db q barcode la lo out h
    rw [searchInventories] at h
    split at h
    · exact Except.noConfusion h
    · dsimp only at h
      split at h
      · injection h with h1
        exact h1 ▸ List.sorted_nil
      · split at h
        · injection h with h1
          exact h1 ▸ List.sorted_nil
        · injection h with h1
          exact h1 ▸ List.sorted_insertionSort keyLE _
  · intro a b d ha hd hb
    constructor
    · exact Or.inl (by simp [searchKey, ha, hb, hd])
    · rintro (h | ⟨h, -⟩)
      · rw [searchKey, searchKey, ha, hb] at h
        simp only [Option.getD_some, Option.getD_none] at h
        linarith
      · rw [searchKey, searchKey, ha, hb] at h
        simp only [Option.getD_some, Option.getD_none] at h
        linarith

def distf0 : ℚ → ℚ → ℚ → ℚ → Option ℚ := fun _ _ _ _ => some 5

def medA : Medicine := { name := "Paracetamol", dci := some "paracetamol" }

def dbS : Db :=
  { medicines := [("m1", medA)],
    inventories := [("i1", invA)],
    pharmacies := [("p1", { name := "Ph", address := "A",
                            coords := some (1, 2) })] }

def row0 : SearchResponseItem :=
  { inventory_id := "i1", pharmacy_id := "p1", pharmacy_name := "Ph",
    pharmacy_address := "A", medicine_name := "Para", price := 4,
    stock := 10, distance_km := some 5 }

theorem searchS_result :
    searchInventories distf0 dbS (some "para") none (some 0) (some 0) =
      .ok [row0] := by rfl

/-- Witness for C5: a concrete search result is sorted, and a concrete
row with distance 5 precedes a distance-less row with a lower price. -/
theorem c5_search_sorting_witness :
    List.Sorted keyLE [row0] ∧
    (keyLE { row0 with price := 100 }
        { row0 with distance_km := none, price := 1 } ∧
      ¬ keyLE { row0 with distance_km := none, price := 1 }
        { row0 with price := 100 }) :=
  ⟨c5_search_sorting.1 distf0 dbS (some "para") none (some 0) (some 0)
      [row0] searchS_result,
   c5_search_sorting.2 { row0 with price := 100 }
     { row0 with distance_km := none, price := 1 } 5 rfl (by norm_num) rfl⟩

/-- C10: `GET /api/search` treats empty-string parameters as absent:
an empty `q` with no barcode, or empty `q` and empty `barcode`, fail
with 400 "Provide 'q' or 'barcode'". -/
theorem c10_empty_params_rejected (distf : ℚ → ℚ → ℚ → ℚ → Option ℚ)
    (db : Db) (la lo : Option ℚ) :
    searchInventories distf db (some "") none la lo =
      .error (.invalidInput "Provide 'q' or 'barcode'") ∧
    searchInventories distf db (some "") (some "") la lo =
      .error (.invalidInput "Provide 'q' or 'barcode'") :=
  ⟨rfl, rfl⟩

/-- C7: the haversine distance is 0 between identical points (hence at
(0,0,0,0)), is symmetric in its two points, and yields exactly
π × 6371 (≈ 20015.1 km) between a point and its antipode. -/
theorem c7_haversine_properties :
    (∀ lat lon : ℝ, haversine_km lat lon lat lon = 0) ∧
    (∀ lat1 lon1 lat2 lon2 : ℝ,
        haversine_km lat1 lon1 lat2 lon2 = haversine_km lat2 lon2 lat1 lon1) ∧
    (∀ lat lon : ℝ,
        haversine_km lat lon (-lat) (lon + 180) = Real.pi * 6371) := by
  refine ⟨?_, ?_, ?_⟩
  · intro lat lon
    rw [haversine_km, sub_self, sub_self, zero_div, Real.sin_zero]
    norm_num [Real.sqrt_zero, Real.arcsin_zero]
  · intro lat1 lon1 lat2 lon2
    have key : ∀ x y : ℝ,
        Real.sin ((x - y) / 2) ^ 2 = Real.sin ((y - x) / 2) ^ 2 := by
      intro x y
      rw [show (x - y) / 2 = -((y - x) / 2) by ring, Real.sin_neg]
      ring
    rw [haversine_km, haversine_km, key (rad lat2) (rad lat1),
      key (rad lon2) (rad lon1), mul_comm (Real.cos (rad lat1))]
  · intro lat lon
    have h1 : rad (-lat) - rad lat = -(2 * rad lat) := by rw [rad, rad]; ring
    have h2 : rad (lon + 180) - rad lon = Real.pi := by
      have ha : (lon + 180) * (Real.pi / 180) - lon * (Real.pi / 180) =
          Real.pi / 180 * 180 := by ring
      rw [rad, rad, ha, div_mul_cancel₀]
      norm_num
    rw [haversine_km, h1, h2]
    rw [show (-(2 * rad lat)) / 2 = -(rad lat) by ring, Real.sin_neg]
    rw [show rad (-lat) = -(rad lat) by rw [rad, rad]; ring, Real.cos_neg]
    rw [Real.sin_pi_div_two]
    have h5 : (-Real.sin (rad lat)) ^ 2 +
        Real.cos (rad lat) * Real.cos (rad lat) * (1 : ℝ) ^ 2 = 1 := by
      linear_combination Real.sin_sq_add_cos_sq (rad lat)
    rw [h5, Real.sqrt_one, Real.arcsin_one]
    ring

def dbE : Db := {}

def reqEmpty : CreateOrderRequest :=
  { user_name := "u", user_phone := "70", pharmacy_id := "p1",
    items := [], delivery_method := .click_collect }

def respEmpty : OrderResponse :=
  { order_id := "0", status := .pending_validation, total_amount := 1,
    delivery_fee := 0, service_fee := 1 }

theorem createOrder_dbE_result :
    (createOrder dbE reqEmpty).2 = .ok respEmpty := by
  have hv : validateItems dbE reqEmpty.items 0 false = .ok (0, false) := rfl
  rw [createOrder, hv]
  have hsf : round2 (max (0.01 * 0) 100 / 100) = 1 := by
    norm_num [round2, round_eq]
  have hta : round2 (0 + 1 + 0) = 1 := by norm_num [round2, round_eq]
  have hdm : DeliveryMethod.click_collect ≠ DeliveryMethod.delivery := by
    decide
  simp only [optTruthy, Bool.false_and, Bool.false_eq_true, if_false, hsf]
  have hta1 : round2 1 = 1 := by norm_num [round2, round_eq]
  have hts : toString dbE.orders.length = "0" := rfl
  norm_num [reqEmpty, respEmpty, hsf, hta, hta1, hts, hdm, if_neg hdm]

/-- C8 counterexample: neither the `Order` model nor the request body
enforces a non-empty item list — the all-items validation accepts an
empty list and `POST /api/orders` happily creates an order with zero
items, refuting the claim at the concrete empty-items request. -/
theorem c8_empty_items_counterexample :
    validCreateOrderRequest reqEmpty = true ∧ reqEmpty.items = [] ∧
    (createOrder dbE reqEmpty).2 = .ok respEmpty :=
  ⟨rfl, rfl, createOrder_dbE_result⟩

/-- C8 (amended): the `items` field of the order request and of the
persisted order carries no non-emptiness constraint: a request with an
empty items list passes boundary validation and produces a persisted
order with zero items. -/
theorem c8_empty_items_accepted (db : Db) (p : CreateOrderRequest)
    (h : p.items = []) :
    validCreateOrderRequest p = true ∧
    ∃ db2 r, createOrder db p = (db2, .ok r) ∧
      ∃ o, db2.orders = db.orders ++ [o] ∧ o.items = [] := by
  constructor
  · rw [validCreateOrderRequest, h]
    rfl
  · have hok : ∀ it ∈ p.items, lookupOk db it ∧ stockOk db it := by
      rw [h]
      intro it hit
      cases hit
    have hrx : (∃ it ∈ p.items, it.requires_prescription = true) →
        optTruthy p.prescription_url = true := by
      rw [h]
      rintro ⟨it, hit, -⟩
      cases hit
    obtain ⟨db2, r, hcr⟩ := createOrder_succeeds hok hrx
    obtain ⟨-, -, -, -, o, ho1, ho2, -⟩ := createOrder_ok hcr
    exact ⟨db2, r, hcr, o, ho1, h ▸ ho2⟩

/-- Witness for C8 (amended) at the concrete empty-items request. -/
theorem c8_empty_items_accepted_witness :
    validCreateOrderRequest reqEmpty = true ∧
    ∃ db2 r, createOrder dbE reqEmpty = (db2, .ok r) ∧
      ∃ o, db2.orders = dbE.orders ++ [o] ∧ o.items = [] :=
  c8_empty_items_accepted dbE reqEmpty rfl

end Roogo
